/-
Verification of the robot-simulation engine (RobotSimulator, Kinematics,
CoordinateSystem) by shallow embedding into Lean 4.

Conventions used throughout:
* JS numbers are modelled as exact reals (ℝ); where a function only performs
  arithmetic and comparisons on caller-supplied values we use ℚ so that the
  definitions are executable and witnesses can be checked by `decide`.
* JS arrays are `List`s (when length genericity matters to the source
  behaviour) or `Fin 6 → _` vectors (for the fixed six-joint state).
* A thrown JS exception is an explicit error value (`Except`, a `Bool` flag,
  or a dedicated constructor).
* `Math.atan2`, `Math.acos`, `Math.sqrt` are `atan2` (defined below),
  `Real.arccos`, `Real.sqrt`.
* The cooperative `async`/`setTimeout` scheduling of the move queue is
  modelled as a small-step machine driven by external events; one `tick`
  event corresponds to one interpolation-step timer firing.
-/
import Mathlib

namespace RobotSim

/-- 3-component vector `{x, y, z}` over an arbitrary coordinate type. -/
structure Vec3 (α : Type) where
  x : α
  y : α
  z : α
  deriving DecidableEq, Repr

/-- Coordinate access by index, used for the numerical Jacobian. -/
def Vec3.coord (v : Vec3 ℝ) : Fin 3 → ℝ
  | 0 => v.x
  | 1 => v.y
  | 2 => v.z

/-- Cast a rational vector (caller-supplied coordinates) into ℝ. -/
def Vec3.toR (v : Vec3 ℚ) : Vec3 ℝ := ⟨(v.x : ℝ), (v.y : ℝ), (v.z : ℝ)⟩

/-- JavaScript `Math.atan2(y, x)`. -/
noncomputable def atan2 (y x : ℝ) : ℝ :=
  if 0 < x then Real.arctan (y / x)
  else if x < 0 then
    (if 0 ≤ y then Real.arctan (y / x) + Real.pi else Real.arctan (y / x) - Real.pi)
  else
    (if 0 < y then Real.pi / 2 else if y < 0 then -(Real.pi / 2) else 0)

/-! ## RobotSimulator configuration (constructor defaults of the core class)

Joint limits and the workspace box from the `config` object built in the
`RobotSimulator` constructor. -/

/-- One entry of `config.jointLimits`: `{min, max, maxSpeed}` (degrees). -/
structure JointLim where
  min : ℚ
  max : ℚ
  maxSpeed : ℚ
  deriving DecidableEq, Repr

/-- One axis of `config.workspace`: `{min, max}`. -/
structure AxisRange where
  min : ℚ
  max : ℚ
  deriving DecidableEq, Repr

/-- `config.workspace`: x, y in [-1200, 1200], z in [-500, 1500]. -/
structure Workspace where
  x : AxisRange
  y : AxisRange
  z : AxisRange
  deriving DecidableEq, Repr

def workspaceCfg : Workspace :=
  ⟨⟨-1200, 1200⟩, ⟨-1200, 1200⟩, ⟨-500, 1500⟩⟩

/-- `config.jointLimits` (CLINK HCR14 3GEN limits). -/
def jointLimitsCfg : List JointLim :=
  [⟨-360, 360, 155⟩, ⟨-360, 360, 155⟩, ⟨-165, 165, 230⟩,
   ⟨-360, 360, 270⟩, ⟨-360, 360, 270⟩, ⟨-360, 360, 270⟩]

/-- `config.homeJointAngles` = `config.initJointAngles` = `[0,-90,-90,-90,90,0]`. -/
def initJointAngles : Fin 6 → ℚ := ![0, -90, -90, -90, 90, 0]

/-- `RobotSimulator.validatePosition`: the target is inside the workspace box,
three independent per-axis interval checks. -/
def validatePosition (p : Vec3 ℚ) : Bool :=
  decide (workspaceCfg.x.min ≤ p.x ∧ p.x ≤ workspaceCfg.x.max ∧
          workspaceCfg.y.min ≤ p.y ∧ p.y ≤ workspaceCfg.y.max ∧
          workspaceCfg.z.min ≤ p.z ∧ p.z ≤ workspaceCfg.z.max)

/-- `RobotSimulator.validateJoints`: iterates over `joints.length` entries,
reading `jointLimits[i]` for each.  When `joints` is longer than the limit
table, the JS code reads `.min` of `undefined` and throws a `TypeError`;
that path is the `.error ()` case.  The loop over indices is rendered as
simultaneous structural recursion on the two lists. -/
def validateJoints : List JointLim → List ℚ → Except Unit Bool
  | _, [] => .ok true
  | [], _ :: _ => .error ()
  | l :: ls, j :: js =>
    if j < l.min ∨ j > l.max then .ok false else validateJoints ls js

/-! ## Gripper -/

/-- `state.gripper`: `{isOpen, position, force}`. -/
structure GripperState where
  isOpen : Bool
  position : ℚ
  force : ℚ
  deriving DecidableEq, Repr

/-- Initial gripper state from the constructor. -/
def initGripper : GripperState := ⟨true, 0, 0⟩

/-- `RobotSimulator.setGripper(position, force)`: throws when `position` is
outside `[0, 100]` (second component `false`, gripper left untouched),
otherwise stores position and force and derives `isOpen = position < 50`. -/
def setGripper (position force : ℚ) (g : GripperState) : GripperState × Bool :=
  if position < 0 ∨ position > 100 then (g, false)
  else (⟨decide (position < 50), position, force⟩, true)

/-! ## Move durations -/

/-- `RobotSimulator.calculateMoveTime`: Euclidean distance over speed, in ms,
floored at 500 ms. -/
noncomputable def calculateMoveTime (start finish : Vec3 ℝ) (speed : ℝ) : ℝ :=
  let distance := Real.sqrt ((finish.x - start.x) ^ 2 + (finish.y - start.y) ^ 2 +
    (finish.z - start.z) ^ 2)
  max 500 (distance / speed * 1000)

/-- `RobotSimulator.calculateJointMoveTime`: `Math.max` over the six absolute
per-joint deltas, over speed, in ms, floored at 500 ms. -/
noncomputable def calculateJointMoveTime (startJoints endJoints : Fin 6 → ℝ)
    (speed : ℝ) : ℝ :=
  let maxAngleDiff :=
    max (max (max (max (max |endJoints 0 - startJoints 0| |endJoints 1 - startJoints 1|)
      |endJoints 2 - startJoints 2|) |endJoints 3 - startJoints 3|)
      |endJoints 4 - startJoints 4|) |endJoints 5 - startJoints 5|
  max 500 (maxAngleDiff / speed * 1000)

/-! ## Homogeneous 4×4 transforms and forward kinematics

`calculateForwardKinematics` builds a standard DH transform per joint and
accumulates their product; position comes from the last column, orientation
from an atan2 decomposition of the rotation block. -/

/-- A 4×4 matrix of reals, row-major fields `mRC`. -/
structure Mat4 where
  m00 : ℝ
  m01 : ℝ
  m02 : ℝ
  m03 : ℝ
  m10 : ℝ
  m11 : ℝ
  m12 : ℝ
  m13 : ℝ
  m20 : ℝ
  m21 : ℝ
  m22 : ℝ
  m23 : ℝ
  m30 : ℝ
  m31 : ℝ
  m32 : ℝ
  m33 : ℝ

/-- `multiplyMatrix4x4`. -/
def mul4 (A B : Mat4) : Mat4 where
  m00 := A.m00 * B.m00 + A.m01 * B.m10 + A.m02 * B.m20 + A.m03 * B.m30
  m01 := A.m00 * B.m01 + A.m01 * B.m11 + A.m02 * B.m21 + A.m03 * B.m31
  m02 := A.m00 * B.m02 + A.m01 * B.m12 + A.m02 * B.m22 + A.m03 * B.m32
  m03 := A.m00 * B.m03 + A.m01 * B.m13 + A.m02 * B.m23 + A.m03 * B.m33
  m10 := A.m10 * B.m00 + A.m11 * B.m10 + A.m12 * B.m20 + A.m13 * B.m30
  m11 := A.m10 * B.m01 + A.m11 * B.m11 + A.m12 * B.m21 + A.m13 * B.m31
  m12 := A.m10 * B.m02 + A.m11 * B.m12 + A.m12 * B.m22 + A.m13 * B.m32
  m13 := A.m10 * B.m03 + A.m11 * B.m13 + A.m12 * B.m23 + A.m13 * B.m33
  m20 := A.m20 * B.m00 + A.m21 * B.m10 + A.m22 * B.m20 + A.m23 * B.m30
  m21 := A.m20 * B.m01 + A.m21 * B.m11 + A.m22 * B.m21 + A.m23 * B.m31
  m22 := A.m20 * B.m02 + A.m21 * B.m12 + A.m22 * B.m22 + A.m23 * B.m32
  m23 := A.m20 * B.m03 + A.m21 * B.m13 + A.m22 * B.m23 + A.m23 * B.m33
  m30 := A.m30 * B.m00 + A.m31 * B.m10 + A.m32 * B.m20 + A.m33 * B.m30
  m31 := A.m30 * B.m01 + A.m31 * B.m11 + A.m32 * B.m21 + A.m33 * B.m31
  m32 := A.m30 * B.m02 + A.m31 * B.m12 + A.m32 * B.m22 + A.m33 * B.m32
  m33 := A.m30 * B.m03 + A.m31 * B.m13 + A.m32 * B.m23 + A.m33 * B.m33

/-- The identity transform the accumulation starts from. -/
def id4 : Mat4 := ⟨1, 0, 0, 0, 0, 1, 0, 0, 0, 0, 1, 0, 0, 0, 0, 1⟩

/-- The per-joint DH transform `Ti` for parameters `[a, alpha, d]` at joint
angle `theta` (already including the theta-offset). -/
noncomputable def dhMat (a alpha d theta : ℝ) : Mat4 :=
  ⟨Real.cos theta, -Real.sin theta * Real.cos alpha,
     Real.sin theta * Real.sin alpha, a * Real.cos theta,
   Real.sin theta, Real.cos theta * Real.cos alpha,
     -Real.cos theta * Real.sin alpha, a * Real.sin theta,
   0, Real.sin alpha, Real.cos alpha, d,
   0, 0, 0, 1⟩

/-- The accumulation loop `T = T * Ti` over a DH-parameter table
`[(a, alpha, d, theta_offset)]` zipped with the joint angles (radians). -/
noncomputable def fkFold (params : List (ℝ × ℝ × ℝ × ℝ)) (rad : List ℝ) : Mat4 :=
  (params.zip rad).foldl
    (fun T pr => mul4 T (dhMat pr.1.1 pr.1.2.1 pr.1.2.2.1 (pr.2 + pr.1.2.2.2)))
    id4

/-- DH table of `RobotSimulator.calculateForwardKinematics`
(`[a, alpha, d, theta_offset]` rows). -/
noncomputable def dhParamsSim : List (ℝ × ℝ × ℝ × ℝ) :=
  [(0, 0, 60, 0),
   (0, Real.pi / 2, 40, -(Real.pi / 2)),
   (200, 0, 0, 0),
   (0, Real.pi / 2, 150, 0),
   (0, -(Real.pi / 2), 40, 0),
   (0, 0, 70, 0)]

/-- The pose object returned by `calculateForwardKinematics`. -/
structure Pose where
  x : ℝ
  y : ℝ
  z : ℝ
  rx : ℝ
  ry : ℝ
  rz : ℝ

/-- Position/orientation extraction from the accumulated transform. -/
noncomputable def poseOfT (T : Mat4) : Pose where
  x := T.m03
  y := T.m13
  z := T.m23
  rx := atan2 T.m21 T.m22 * 180 / Real.pi
  ry := atan2 (-T.m20) (Real.sqrt (T.m21 * T.m21 + T.m22 * T.m22)) * 180 / Real.pi
  rz := atan2 T.m10 T.m00 * 180 / Real.pi

/-- `RobotSimulator.calculateForwardKinematics` on a six-joint vector
(degrees): degree→radian conversion, DH accumulation, pose extraction. -/
noncomputable def calculateForwardKinematics (joints : Fin 6 → ℝ) : Pose :=
  poseOfT (fkFold dhParamsSim (List.ofFn fun i => joints i * Real.pi / 180))

/-- Position part of a pose. -/
def Pose.pos (p : Pose) : Vec3 ℝ := ⟨p.x, p.y, p.z⟩

/-- Orientation part of a pose. -/
def Pose.orient (p : Pose) : Vec3 ℝ := ⟨p.rx, p.ry, p.rz⟩

/-! ## Geometric inverse kinematics of the core simulator

`RobotSimulator.calculateInverseKinematics(position)` (the variant used by
`executeMove`): base rotation by atan2, wrist-center offset, law of cosines.
When `|cos θ3| > 1` the target is unreachable and the function returns the
"safe configuration" joint vector `[θ1, 0, 0, 0, 0, 0]` (degrees). -/

/-- The `cos_theta3` value computed inside `calculateInverseKinematics`. -/
noncomputable def ikCosTheta3 (p : Vec3 ℝ) : ℝ :=
  let d1 : ℝ := 60
  let d2 : ℝ := 40
  let a3 : ℝ := 200
  let d4 : ℝ := 150
  let d6 : ℝ := 70
  let theta1 := atan2 p.y p.x
  let wrist_x := p.x - d6 * Real.cos theta1
  let wrist_y := p.y - d6 * Real.sin theta1
  let wrist_z := p.z
  let r := Real.sqrt (wrist_x * wrist_x + wrist_y * wrist_y)
  let s := wrist_z - d1 - d2
  let D := Real.sqrt (r * r + s * s)
  (a3 * a3 + d4 * d4 - D * D) / (2 * a3 * d4)

/-- `RobotSimulator.calculateInverseKinematics` (degrees out). -/
noncomputable def calculateInverseKinematics (p : Vec3 ℝ) : Fin 6 → ℝ :=
  let a3 : ℝ := 200
  let d4 : ℝ := 150
  let theta1 := atan2 p.y p.x
  let wrist_x := p.x - 70 * Real.cos theta1
  let wrist_y := p.y - 70 * Real.sin theta1
  let r := Real.sqrt (wrist_x * wrist_x + wrist_y * wrist_y)
  let s := p.z - 60 - 40
  let D := Real.sqrt (r * r + s * s)
  let cos_theta3 := (a3 * a3 + d4 * d4 - D * D) / (2 * a3 * d4)
  if 1 < |cos_theta3| then
    ![theta1 * 180 / Real.pi, 0, 0, 0, 0, 0]
  else
    let theta3 := Real.arccos cos_theta3
    let alpha := atan2 s r
    let beta := Real.arccos ((a3 * a3 + D * D - d4 * d4) / (2 * a3 * D))
    let theta2 := alpha + beta
    let theta4 : ℝ := 0
    let theta5 := -(theta2 + theta3 - Real.pi / 2)
    let theta6 : ℝ := 0
    ![theta1 * 180 / Real.pi, theta2 * 180 / Real.pi, theta3 * 180 / Real.pi,
      theta4 * 180 / Real.pi, theta5 * 180 / Real.pi, theta6 * 180 / Real.pi]

/-! ## Geometric inverse kinematics, extended variant

The second `RobotSimulator.calculateInverseKinematics(position, orientation,
config)` variant: explicit reach checks against `max_reach`/`min_reach`, a
numerical-noise branch around `cos_theta3`, elbow-configuration selection and
a final joint-limit check.  Its three JS outcomes are: a joint-angle array,
`null` (unreachable), and — inside the noise branch — an assignment to the
`const cos_theta3`, which in JavaScript throws a `TypeError`
(`.typeError` below). -/

inductive IKGeoResult where
  | ok (angles : Fin 6 → ℝ)
  | unreachable
  | typeError

/-- Default orientation used when none is supplied: pitch `π/2`
(pointing down). -/
noncomputable def defaultPitch : ℝ := Real.pi / 2

/-- Per-joint limit table hard-coded inside the extended solver (degrees). -/
def ikGeoJointLimits : Fin 6 → ℚ × ℚ :=
  ![(-180, 180), (-90, 90), (-150, 150), (-180, 180), (-120, 120), (-360, 360)]

/-- `cos_theta3` of the extended solver at the default (downward) orientation. -/
noncomputable def ikGeoCosTheta3 (p : Vec3 ℝ) : ℝ :=
  let d1 : ℝ := 60
  let d2 : ℝ := 40
  let a3 : ℝ := 200
  let d4 : ℝ := 150
  let d6 : ℝ := 70
  let theta1 := atan2 p.y p.x
  let wrist_x := p.x - d6 * Real.cos theta1 * Real.cos defaultPitch
  let wrist_y := p.y - d6 * Real.sin theta1 * Real.cos defaultPitch
  let wrist_z := p.z - d6 * Real.sin defaultPitch
  let r := Real.sqrt (wrist_x * wrist_x + wrist_y * wrist_y)
  let s := wrist_z - d1 - d2
  let D := Real.sqrt (r * r + s * s)
  (a3 * a3 + d4 * d4 - D * D) / (2 * a3 * d4)

/-- The extended geometric solver at the default orientation and the default
`elbow: 'up'` configuration. -/
noncomputable def ikGeo (p : Vec3 ℝ) : IKGeoResult :=
  let d1 : ℝ := 60
  let d2 : ℝ := 40
  let a3 : ℝ := 200
  let d4 : ℝ := 150
  let d6 : ℝ := 70
  let theta1 := atan2 p.y p.x
  let wrist_x := p.x - d6 * Real.cos theta1 * Real.cos defaultPitch
  let wrist_y := p.y - d6 * Real.sin theta1 * Real.cos defaultPitch
  let wrist_z := p.z - d6 * Real.sin defaultPitch
  let r := Real.sqrt (wrist_x * wrist_x + wrist_y * wrist_y)
  let s := wrist_z - d1 - d2
  let D := Real.sqrt (r * r + s * s)
  let max_reach := a3 + d4
  let min_reach := |a3 - d4|
  if max_reach < D then .unreachable
  else if D < min_reach then .unreachable
  else
    let cos_theta3 := (a3 * a3 + d4 * d4 - D * D) / (2 * a3 * d4)
    if 1 < |cos_theta3| then
      -- `cos_theta3 = Math.sign(cos_theta3)` reassigns a `const`: TypeError.
      if |cos_theta3| - 1 < 1e-6 then .typeError else .unreachable
    else
      let theta3 := Real.arccos cos_theta3
      let alpha := atan2 s r
      let beta := Real.arccos ((a3 * a3 + D * D - d4 * d4) / (2 * a3 * D))
      let theta2 := alpha - beta
      let theta4 : ℝ := 0
      let theta5 := -(theta2 + theta3 - Real.pi / 2)
      let theta6 : ℝ := 0
      let angles_deg : Fin 6 → ℝ :=
        ![theta1 * 180 / Real.pi, theta2 * 180 / Real.pi, theta3 * 180 / Real.pi,
          theta4 * 180 / Real.pi, theta5 * 180 / Real.pi, theta6 * 180 / Real.pi]
      if ∃ i : Fin 6, angles_deg i < ((ikGeoJointLimits i).1 : ℝ) ∨
          ((ikGeoJointLimits i).2 : ℝ) < angles_deg i then
        .unreachable
      else .ok angles_deg

/-! ## CoordinateSystem: JointLimits.clampJoints

`clampJoints` maps each entry through `Math.max(min, Math.min(max, angle))`,
passing entries beyond the limit table through unchanged.  The indexed
`map` is rendered as simultaneous structural recursion on the two lists. -/

/-- One entry of the `JointLimits` table (only `min`/`max` are read by
`clampJoints`). -/
structure CsJointLim where
  min : ℚ
  max : ℚ
  deriving DecidableEq, Repr

/-- `JointLimits.clampJoints`. -/
def clampJoints : List CsJointLim → List ℚ → List ℚ
  | _, [] => []
  | [], a :: as => a :: clampJoints [] as
  | l :: ls, a :: as => max l.min (min l.max a) :: clampJoints ls as

/-! ## Kinematics class (numerical engine)

`Kinematics`: forward kinematics over its own DH table (radian inputs, no
degree conversion), a numerically differentiated 3×6 Jacobian, normal
equations solved by Gaussian elimination, and a Newton-Raphson loop with a
100-iteration budget and step size 0.1 that clamps each joint into its
configured range after every update.  JS 2-D arrays are `List (List ℝ)`;
out-of-range reads (never exercised at the sizes used here) default
to `0`/`[]`. -/

namespace Kinematics

/-- Entry read `M[i][j]` on a list-of-rows matrix. -/
def getE (M : List (List ℝ)) (i j : ℕ) : ℝ := (M.getD i []).getD j 0

/-- Row read `M[i]`. -/
def getRow (M : List (List ℝ)) (i : ℕ) : List ℝ := M.getD i []

/-- `multiplyMatrices` (generic row-by-column product). -/
def matMulL (A B : List (List ℝ)) : List (List ℝ) :=
  let colsA := (A.headD []).length
  let colsB := (B.headD []).length
  A.map fun row =>
    (List.range colsB).map fun j =>
      (List.range colsA).foldl (fun acc k => acc + row.getD k 0 * getE B k j) 0

/-- `multiplyMatrixVector`. -/
def matVecL (M : List (List ℝ)) (v : List ℝ) : List ℝ :=
  M.map fun row =>
    (List.range v.length).foldl (fun acc j => acc + row.getD j 0 * v.getD j 0) 0

/-- `transposeMatrix`. -/
def transposeL (M : List (List ℝ)) : List (List ℝ) :=
  (List.range (M.headD []).length).map fun j => M.map fun row => row.getD j 0

/-- `extractDHParameters`: the engine's `{a, alpha, d, theta}` table, in the
`(a, alpha, d, theta)` layout used by `fkFold`. -/
noncomputable def dhParams : List (ℝ × ℝ × ℝ × ℝ) :=
  [(0, Real.pi / 2, 35, 0),
   (80, 0, 0, 0),
   (80, 0, 0, 0),
   (0, Real.pi / 2, 50, 0),
   (0, -(Real.pi / 2), 30, 0),
   (0, 0, 15, 0)]

/-- `forwardKinematics(jointAngles).position` for a six-joint radian vector
(the source throws on any other length; the solver only ever passes
six-vectors).  `createDHTransformMatrix` and the accumulation loop are the
same computation as `dhMat`/`fkFold`. -/
noncomputable def forwardPos (j : Fin 6 → ℝ) : Vec3 ℝ :=
  let T := fkFold dhParams (List.ofFn j)
  ⟨T.m03, T.m13, T.m23⟩

/-- `calculateJacobian`: forward-difference columns with `epsilon = 0.001`,
then the inline transpose to a 3×6 matrix. -/
noncomputable def calculateJacobian (j : Fin 6 → ℝ) : List (List ℝ) :=
  let eps : ℝ := 0.001
  let currentPos := forwardPos j
  let cols : List (List ℝ) := List.ofFn fun i : Fin 6 =>
    let perturbedPos := forwardPos (Function.update j i (j i + eps))
    [(perturbedPos.x - currentPos.x) / eps,
     (perturbedPos.y - currentPos.y) / eps,
     (perturbedPos.z - currentPos.z) / eps]
  transposeL cols

/-- Pivot selection of `gaussianElimination`: the row in `i..n-1` whose
`i`-th column has the largest absolute value (ties keep the earlier row). -/
noncomputable def pivotIdx (aug : List (List ℝ)) (i : ℕ) : ℕ :=
  (List.range' (i + 1) (aug.length - (i + 1))).foldl
    (fun m k => if |getE aug m i| < |getE aug k i| then k else m) i

/-- The destructuring row swap `[aug[i], aug[p]] = [aug[p], aug[i]]`. -/
def swapRows (M : List (List ℝ)) (i k : ℕ) : List (List ℝ) :=
  (M.set i (getRow M k)).set k (getRow M i)

/-- One column of forward elimination: pivot, swap, then subtract
`factor * row i` from every row below, on entries `i..n`.
(JS division by a zero pivot yields Infinity/NaN; in this exact model the
resulting junk values are never relied on by any theorem.) -/
noncomputable def elimStep (aug : List (List ℝ)) (i : ℕ) : List (List ℝ) :=
  let aug1 := swapRows aug i (pivotIdx aug i)
  aug1.mapIdx fun k row =>
    if i < k then
      let factor := getE aug1 k i / getE aug1 i i
      row.mapIdx fun jc v => if i ≤ jc then v - factor * getE aug1 i jc else v
    else row

/-- Back substitution, counting down from row `n-1`; the fuel argument
mirrors the `for (i = n-1; i >= 0; i--)` loop. -/
noncomputable def backSubAux (aug : List (List ℝ)) (n : ℕ) : ℕ → ℕ → List ℝ
  | 0, _ => []
  | fuel + 1, i =>
    let rest := backSubAux aug n fuel (i + 1)
    let s := ((List.range' (i + 1) (n - (i + 1))).zip rest).foldl
      (fun acc jx => acc + getE aug i jx.1 * jx.2) 0
    ((getE aug i n - s) / getE aug i i) :: rest

/-- `gaussianElimination(A, b)`. -/
noncomputable def gaussianElimination (A : List (List ℝ)) (b : List ℝ) : List ℝ :=
  let n := A.length
  let aug0 := A.mapIdx fun i row => row ++ [b.getD i 0]
  let aug := (List.range n).foldl elimStep aug0
  backSubAux aug n n 0

/-- `solveLinearSystem`: normal equations `(AᵗA) x = Aᵗ b`. -/
noncomputable def solveLinearSystem (A : List (List ℝ)) (b : List ℝ) : List ℝ :=
  let AT := transposeL A
  gaussianElimination (matMulL AT A) (matVecL AT b)

/-- Joint ranges (degrees) read from the robot configuration object
(`ROBOT_6DOF_CONFIG.joints.j1..j6.range`); `none` models a joint entry
without a `range` field. -/
def configRanges : Fin 6 → Option (ℚ × ℚ) :=
  ![some (-180, 180), some (-90, 90), some (-90, 90),
    some (-180, 180), some (-180, 180), some (-180, 180)]

/-- The position error `target − forward(joints).position`. -/
noncomputable def ikErr (target : Vec3 ℝ) (j : Fin 6 → ℝ) : Fin 3 → ℝ :=
  fun r => target.coord r - (forwardPos j).coord r

/-- `errorMagnitude`: the Euclidean norm of the position error. -/
noncomputable def ikErrMag (target : Vec3 ℝ) (j : Fin 6 → ℝ) : ℝ :=
  Real.sqrt (ikErr target j 0 * ikErr target j 0 +
    ikErr target j 1 * ikErr target j 1 + ikErr target j 2 * ikErr target j 2)

/-- One Newton-Raphson update: solve the normal equations, move each joint
by `delta * 0.1`, then clamp into its configured range (converted to
radians), exactly as the per-iteration update loop does. -/
noncomputable def ikStep (ranges : Fin 6 → Option (ℚ × ℚ)) (target : Vec3 ℝ)
    (j : Fin 6 → ℝ) : Fin 6 → ℝ :=
  let jac := calculateJacobian j
  let deltaAngles := solveLinearSystem jac (List.ofFn fun r : Fin 3 => ikErr target j r)
  let stepSize : ℝ := 0.1
  fun i =>
    let v := j i + deltaAngles.getD i 0 * stepSize
    match ranges i with
    | none => v
    | some (lo, hi) =>
      max ((lo : ℝ) * Real.pi / 180) (min ((hi : ℝ) * Real.pi / 180) v)

/-- The bounded iteration: check convergence, else step, at most `n` times;
when the budget runs out, the current joint vector is returned as is. -/
noncomputable def ikLoop (ranges : Fin 6 → Option (ℚ × ℚ)) (target : Vec3 ℝ) :
    ℕ → (Fin 6 → ℝ) → Fin 6 → ℝ
  | 0, j => j
  | n + 1, j =>
    if ikErrMag target j < 0.001 then j
    else ikLoop ranges target n (ikStep ranges target j)

/-- `Kinematics.inverseKinematics(target, initialGuess)`:
`maxIterations = 100`, `tolerance = 0.001`.  Its return value is a plain
joint-angle array on every path — both on convergence and when the budget
is exhausted (the latter only logs a console warning). -/
noncomputable def inverseKinematics (ranges : Fin 6 → Option (ℚ × ℚ))
    (target : Vec3 ℝ) (guess : Fin 6 → ℝ) : Fin 6 → ℝ :=
  ikLoop ranges target 100 guess

/-- The default `initialGuess = [0,0,0,0,0,0]`. -/
def defaultGuess : Fin 6 → ℝ := fun _ => 0

/-- The loop found an iterate within tolerance inside the 100-iteration
budget (i.e. the early `return jointAngles` fired). -/
noncomputable def ikConverged (ranges : Fin 6 → Option (ℚ × ℚ))
    (target : Vec3 ℝ) (guess : Fin 6 → ℝ) : Prop :=
  ∃ k < 100, ikErrMag target ((ikStep ranges target)^[k] guess) < 0.001

end Kinematics

/-! ## The move queue / scheduler as a small-step machine

`moveTo`/`moveJoints` validate synchronously, push a command onto
`moveQueue` and call `processQueue`; `processQueue` drains the queue one
command at a time behind the `isProcessingQueue` flag; `executeMove`
interpolates in 20 steps separated by `setTimeout` waits (the interpolation
steps only emit events — all `state` mutation happens at the end of
`executeMove`), then the drain loop continues.  `emergencyStop` empties the
queue, clears the flag and clears `isMoving` — it does not touch a
suspended `executeMove`.

The event-loop is modelled explicitly: a `tick k` event is the firing of
the interpolation timer of the `k`-th suspended `executeMove` frame;
`inFlight` holds the suspended frames `(command, completed steps)`.
Request options (`speed`, `acceleration`) only scale the real-time step
delay, which the event model abstracts, so commands carry just their
target. -/

/-- A queued move command (`type` + `target`). -/
inductive Cmd where
  | moveTo (target : Vec3 ℚ)
  | moveJoints (target : Fin 6 → ℚ)

/-- Validation run by `moveTo`/`moveJoints` before queuing.  `moveJoints`
passes the six-vector through the array-based `validateJoints`. -/
def validCmd : Cmd → Bool
  | .moveTo target => validatePosition target
  | .moveJoints target =>
    match validateJoints jointLimitsCfg (List.ofFn target) with
    | .ok true => true
    | _ => false

/-- `state` of the simulator (the fields the engine mutates). -/
structure RState where
  joints : Fin 6 → ℝ
  position : Vec3 ℝ
  orientation : Vec3 ℝ
  gripper : GripperState
  isMoving : Bool
  isHomed : Bool

/-- Whole-machine state: robot state, pending queue, drain flag, and the
suspended `executeMove` frames. -/
structure SimState where
  robot : RState
  moveQueue : List Cmd
  isProcessingQueue : Bool
  inFlight : List (Cmd × ℕ)

/-- External events driving the machine. -/
inductive Ev where
  | submit (c : Cmd)
  | tick (k : ℕ)
  | estop

/-- Observable outcomes (promise lifecycle and emitted notifications). -/
inductive Obs where
  | accepted (c : Cmd)
  | rejected (c : Cmd)
  | started (c : Cmd)
  | completed (c : Cmd)
  | stopped

/-- The state mutation performed at the end of `executeMove`: a `moveTo`
overwrites `position` with the raw target and `joints` with the geometric
IK solution (orientation is left untouched); a `moveJoints` overwrites
`joints` and re-derives the pose by forward kinematics. -/
noncomputable def applyMove : Cmd → RState → RState
  | .moveTo target, r =>
    { r with position := target.toR,
             joints := calculateInverseKinematics target.toR }
  | .moveJoints target, r =>
    let newPose := calculateForwardKinematics fun i => (target i : ℝ)
    { r with joints := fun i => (target i : ℝ),
             position := newPose.pos, orientation := newPose.orient }

/-- The synchronous prefix of `processQueue`: bail out if already draining
or nothing is queued; otherwise set the flag and `isMoving`, shift the
head command and start executing it (its frame suspends at the first
interpolation wait). -/
def processQueueStart (s : SimState) : SimState × List Obs :=
  if s.isProcessingQueue then (s, [])
  else
    match s.moveQueue with
    | [] => (s, [])
    | c :: rest =>
      ({ s with moveQueue := rest, isProcessingQueue := true,
                robot := { s.robot with isMoving := true },
                inFlight := s.inFlight ++ [(c, 0)] }, [.started c])

/-- One event-loop step. -/
noncomputable def step (s : SimState) : Ev → SimState × List Obs
  | .submit c =>
    if validCmd c then
      let s1 := { s with moveQueue := s.moveQueue ++ [c] }
      let (s2, obs) := processQueueStart s1
      (s2, .accepted c :: obs)
    else (s, [.rejected c])
  | .estop =>
    ({ s with moveQueue := [], isProcessingQueue := false,
              robot := { s.robot with isMoving := false } }, [.stopped])
  | .tick k =>
    match s.inFlight[k]? with
    | none => (s, [])
    | some (c, i) =>
      if i + 1 < 20 then
        ({ s with inFlight := s.inFlight.set k (c, i + 1) }, [])
      else
        let s1 := { s with robot := applyMove c s.robot,
                           inFlight := s.inFlight.eraseIdx k }
        match s1.moveQueue with
        | [] =>
          ({ s1 with isProcessingQueue := false,
                     robot := { s1.robot with isMoving := false } },
           [.completed c])
        | next :: rest =>
          ({ s1 with moveQueue := rest,
                     inFlight := s1.inFlight ++ [(next, 0)] },
           [.completed c, .started next])

/-- Run a sequence of events, collecting the observation log. -/
noncomputable def run (s : SimState) : List Ev → SimState × List Obs
  | [] => (s, [])
  | e :: es =>
    let p := step s e
    let q := run p.1 es
    (q.1, p.2 ++ q.2)

/-- The pose computed in the constructor from `initJointAngles`. -/
noncomputable def initPose : Pose :=
  calculateForwardKinematics fun i => (initJointAngles i : ℝ)

/-- `this.state` right after construction. -/
noncomputable def initRobot : RState :=
  ⟨fun i => (initJointAngles i : ℝ), initPose.pos, initPose.orient,
   initGripper, false, false⟩

/-- The machine right after construction: empty queue, flag clear. -/
noncomputable def initSim : SimState := ⟨initRobot, [], false, []⟩

/-! ## Specification-side vocabulary used by the theorems -/

/-- A `Vec3` as a point of the Euclidean space `ℝ³`, to compare the
source's distance formula with the mathematical Euclidean distance. -/
noncomputable def toE3 (v : Vec3 ℝ) : EuclideanSpace ℝ (Fin 3) := v.coord

/-- The spec invariant: `position`/`orientation` are the forward-kinematics
image of `joints`. -/
noncomputable def FKConsistent (r : RState) : Prop :=
  (calculateForwardKinematics r.joints).pos = r.position ∧
  (calculateForwardKinematics r.joints).orient = r.orientation

/-- Is an observation a start-of-execution or completion event? -/
def isExecObs : Obs → Bool
  | .started _ => true
  | .completed _ => true
  | _ => false

/-- The execution-order part of an observation log. -/
def extractSC (log : List Obs) : List Obs := log.filter isExecObs

/-- The accepted commands of a log, in acceptance order. -/
def acceptedOf (log : List Obs) : List Cmd :=
  log.filterMap fun o => match o with | .accepted c => some c | _ => none

/-- The serial execution log of a command list: each command starts and
completes before the next one starts. -/
def pairsOf (cs : List Cmd) : List Obs :=
  cs.flatMap fun c => [Obs.started c, Obs.completed c]

/-- The validation gate applied by `moveJoints` to a raw (arbitrary-length)
joint array: the request is queued exactly when `validateJoints` returns
`true`. -/
def moveJointsValidates (js : List ℚ) : Bool :=
  match validateJoints jointLimitsCfg js with
  | .ok true => true
  | _ => false

/-- Queue-discipline invariant tied to a log: the drain flag tracks the
existence of an executing request, at most one request is ever executing,
an idle machine has an empty queue, and the log is a serial FIFO record of
the accepted commands. -/
def QInv (s : SimState) (log : List Obs) : Prop :=
  (s.isProcessingQueue = true ↔ s.inFlight ≠ []) ∧
  s.inFlight.length ≤ 1 ∧
  (s.isProcessingQueue = false → s.moveQueue = []) ∧
  ∃ done : List Cmd,
    extractSC log = pairsOf done ++ s.inFlight.map (fun p => Obs.started p.1) ∧
    acceptedOf log = done ++ s.inFlight.map Prod.fst ++ s.moveQueue

/-- Entry-wise bound on a homogeneous transform: rotation-block entries
bounded by `B`, translation entries by `C` (rows 0-2 only; row 3 of a DH
product is always `(0,0,0,1)`). -/
def MatBound (T : Mat4) (B C : ℝ) : Prop :=
  |T.m00| ≤ B ∧ |T.m01| ≤ B ∧ |T.m02| ≤ B ∧ |T.m03| ≤ C ∧
  |T.m10| ≤ B ∧ |T.m11| ≤ B ∧ |T.m12| ≤ B ∧ |T.m13| ≤ C ∧
  |T.m20| ≤ B ∧ |T.m21| ≤ B ∧ |T.m22| ≤ B ∧ |T.m23| ≤ C

/-! # Theorems -/

/-! ## C8: gripper validation -/

/-- C8: `setGripper(position, force)` fails with the invalid-position error
exactly when `position < 0` or `position > 100`, leaving the gripper state
unchanged on failure; for every position in `[0,100]` it succeeds, stores
position and force, and sets `isOpen` to true iff `position < 50`. -/
theorem setGripper_validation (p f : ℚ) (g : GripperState) :
    ((setGripper p f g).2 = false ↔ (p < 0 ∨ p > 100)) ∧
    ((p < 0 ∨ p > 100) → (setGripper p f g).1 = g) ∧
    (0 ≤ p → p ≤ 100 →
      (setGripper p f g).2 = true ∧
      (setGripper p f g).1.position = p ∧
      (setGripper p f g).1.force = f ∧
      ((setGripper p f g).1.isOpen = true ↔ p < 50)) := by
  unfold setGripper
  by_cases h : p < 0 ∨ p > 100
  · refine ⟨by simp [h], by simp [h], fun h0 h100 => absurd h (by push_neg; exact ⟨h0, h100⟩)⟩
  · refine ⟨by simp [h], fun hc => absurd hc h, fun _ _ => ?_⟩
    simp [h, decide_eq_true_iff]

/-- Witness for C8: `setGripper(150, 50)` fails, `setGripper(100, 50)`
succeeds with `isOpen = false`. -/
theorem setGripper_validation_witness :
    (setGripper 150 50 initGripper).2 = false ∧
    (setGripper 150 50 initGripper).1 = initGripper ∧
    (setGripper 100 50 initGripper).2 = true ∧
    (setGripper 100 50 initGripper).1.isOpen = false := by
  refine ⟨?_, ?_, ?_, ?_⟩
  · exact (setGripper_validation 150 50 initGripper).1.mpr (by norm_num)
  · exact (setGripper_validation 150 50 initGripper).2.1 (by norm_num)
  · exact ((setGripper_validation 100 50 initGripper).2.2 (by norm_num) (by norm_num)).1
  · have h := ((setGripper_validation 100 50 initGripper).2.2 (by norm_num)
      (by norm_num)).2.2.2
    have : ¬ ((setGripper 100 50 initGripper).1.isOpen = true) := by
      rw [h]; norm_num
    simpa using this

/-! ## C9: clamp idempotence -/

/-- A single `Math.max(lo, Math.min(hi, ·))` clamp is idempotent, with no
assumption on the order of `lo` and `hi`. -/
theorem clamp1_idem (lo hi a : ℚ) :
    max lo (min hi (max lo (min hi a))) = max lo (min hi a) := by
  rcases le_total lo hi with h | h
  · have h1 : max lo (min hi a) ≤ hi := max_le h (min_le_left _ _)
    rw [min_eq_right h1, max_eq_right (le_max_left _ _)]
  · have h1 : min hi a ≤ lo := le_trans (min_le_left _ _) h
    rw [max_eq_left h1, min_eq_left h, max_eq_left h]

/-- `clampJoints` twice equals `clampJoints` once. -/
theorem clampJoints_idem (limits : List CsJointLim) (js : List ℚ) :
    clampJoints limits (clampJoints limits js) = clampJoints limits js := by
  induction js generalizing limits with
  | nil => cases limits <;> simp [clampJoints]
  | cons a as ih =>
    cases limits with
    | nil => simp [clampJoints, ih]
    | cons l ls => simp [clampJoints, ih, clamp1_idem]

/-- Every clamped entry with a configured (well-ordered) limit lies inside
that limit's range. -/
theorem clampJoints_mem (limits : List CsJointLim) (js : List ℚ) :
    ∀ (i : ℕ) (l : CsJointLim) (v : ℚ), limits[i]? = some l → l.min ≤ l.max →
      (clampJoints limits js)[i]? = some v → l.min ≤ v ∧ v ≤ l.max := by
  induction js generalizing limits with
  | nil =>
    intro i l v _ _ hv
    rw [show clampJoints limits [] = [] from by cases limits <;> rfl] at hv
    simp at hv
  | cons a as ih =>
    intro i l v hl hlm hv
    cases limits with
    | nil => simp at hl
    | cons l0 ls =>
      cases i with
      | zero =>
        simp [clampJoints] at hv hl
        subst hl
        subst hv
        exact ⟨le_max_left _ _, max_le hlm (min_le_left _ _)⟩
      | succ n =>
        simp [clampJoints] at hv hl
        exact ih ls n l v hl hlm hv

/-- C9: `clampJoints` is an idempotent componentwise clamp, and every output
entry that has a configured limit lies inside its `[min, max]` range. -/
theorem clampJoints_spec (limits : List CsJointLim) (js : List ℚ) :
    clampJoints limits (clampJoints limits js) = clampJoints limits js ∧
    (∀ (i : ℕ) (l : CsJointLim) (v : ℚ), limits[i]? = some l → l.min ≤ l.max →
      (clampJoints limits js)[i]? = some v → l.min ≤ v ∧ v ≤ l.max) :=
  ⟨clampJoints_idem limits js, clampJoints_mem limits js⟩

/-- Witness for C9 at a concrete limit table and over-limit input. -/
theorem clampJoints_spec_witness :
    clampJoints [⟨-360, 360⟩, ⟨-165, 165⟩] (clampJoints [⟨-360, 360⟩, ⟨-165, 165⟩] [500, -200, 77]) =
      clampJoints [⟨-360, 360⟩, ⟨-165, 165⟩] [500, -200, 77] ∧
    (-360 : ℚ) ≤ 360 ∧ (360 : ℚ) ≤ 360 := by
  refine ⟨(clampJoints_spec [⟨-360, 360⟩, ⟨-165, 165⟩] [500, -200, 77]).1, ?_⟩
  exact (clampJoints_spec [⟨-360, 360⟩, ⟨-165, 165⟩] [500, -200, 77]).2 0 ⟨-360, 360⟩ 360
    (by simp) (by norm_num) (by simp [clampJoints]; norm_num)

/-! ## C10: validateJoints performs no length check -/

/-- Any joint list no longer than the limit table whose entries are all
within their per-index limits validates to `true`. -/
theorem validateJoints_ok_of_within (limits : List JointLim) (js : List ℚ)
    (hlen : js.length ≤ limits.length)
    (hin : ∀ (i : ℕ) (l : JointLim) (v : ℚ), limits[i]? = some l →
      js[i]? = some v → l.min ≤ v ∧ v ≤ l.max) :
    validateJoints limits js = .ok true := by
  induction js generalizing limits with
  | nil => cases limits <;> simp [validateJoints]
  | cons v vs ih =>
    cases limits with
    | nil => simp at hlen
    | cons l ls =>
      have h0 := hin 0 l v (by simp) (by simp)
      have hcond : ¬ (v < l.min ∨ v > l.max) := by push_neg; exact ⟨h0.1, h0.2⟩
      simp only [validateJoints, if_neg hcond]
      exact ih ls (by simpa using hlen)
        (fun i a b ha hb => hin (i + 1) a b (by simpa using ha) (by simpa using hb))

/-- C10: `validateJoints` performs no length check: every under-length
within-limits joint array validates to `true` (and so passes the gate of
`moveJoints` verbatim), while an in-limits array with more than 6 entries
makes the validator read a field of an undefined limit entry and throw a
`TypeError` instead of returning a boolean. -/
theorem validateJoints_no_length_check :
    (∀ js : List ℚ, js.length < 6 →
      (∀ (i : ℕ) (l : JointLim) (v : ℚ), jointLimitsCfg[i]? = some l →
        js[i]? = some v → l.min ≤ v ∧ v ≤ l.max) →
      validateJoints jointLimitsCfg js = .ok true ∧ moveJointsValidates js = true) ∧
    ((([0, 0, 0, 0, 0, 0, 0] : List ℚ).length > 6) ∧
      validateJoints jointLimitsCfg [0, 0, 0, 0, 0, 0] = .ok true ∧
      validateJoints jointLimitsCfg [0, 0, 0, 0, 0, 0, 0] = .error ()) := by
  constructor
  · intro js hlen hin
    have h := validateJoints_ok_of_within jointLimitsCfg js
      (by simp [jointLimitsCfg]; omega) hin
    exact ⟨h, by simp [moveJointsValidates, h]⟩
  · exact ⟨by norm_num, by rfl, by rfl⟩

/-- Witness for C10: a three-entry within-limits array passes validation
and the `moveJoints` gate. -/
theorem validateJoints_no_length_check_witness :
    validateJoints jointLimitsCfg [30, 45, -45] = .ok true ∧
    moveJointsValidates [30, 45, -45] = true := by
  refine validateJoints_no_length_check.1 [30, 45, -45] (by norm_num) ?_
  intro i l v hl hv
  rcases i with _ | _ | _ | n
  · simp [jointLimitsCfg] at hl hv; subst hl; subst hv; norm_num
  · simp [jointLimitsCfg] at hl hv; subst hl; subst hv; norm_num
  · simp [jointLimitsCfg] at hl hv; subst hl; subst hv; norm_num
  · simp at hv

/-! ## C7: move durations -/

/-- `Finset.sup'` over `Fin 6` agrees with the left-nested `Math.max` of the
six values. -/
theorem sup6_eq_nested (f : Fin 6 → ℝ) :
    Finset.univ.sup' Finset.univ_nonempty f =
      max (max (max (max (max (f 0) (f 1)) (f 2)) (f 3)) (f 4)) (f 5) := by
  apply le_antisymm
  · apply Finset.sup'_le
    intro i _
    fin_cases i <;> simp [le_max_iff]
  · refine max_le (max_le (max_le (max_le (max_le ?_ ?_) ?_) ?_) ?_) ?_ <;>
      exact Finset.le_sup' f (Finset.mem_univ _)

/-- The source's distance expression is the Euclidean distance. -/
theorem dist_toE3 (start finish : Vec3 ℝ) :
    dist (toE3 start) (toE3 finish) =
      Real.sqrt ((finish.x - start.x) ^ 2 + (finish.y - start.y) ^ 2 +
        (finish.z - start.z) ^ 2) := by
  rw [EuclideanSpace.dist_eq, Fin.sum_univ_three]
  simp only [toE3, Vec3.coord, Real.dist_eq, sq_abs]
  congr 1
  ring

/-- C7: a Cartesian move's duration is
`max(500, euclideanDistance / speed * 1000)` and a joint move's duration is
`max(500, maxAbsJointDelta / speed * 1000)`. -/
theorem moveTime_spec (start finish : Vec3 ℝ) (startJoints endJoints : Fin 6 → ℝ)
    (speed : ℝ) :
    calculateMoveTime start finish speed =
      max 500 (dist (toE3 start) (toE3 finish) / speed * 1000) ∧
    calculateJointMoveTime startJoints endJoints speed =
      max 500 ((Finset.univ.sup' Finset.univ_nonempty
        fun i : Fin 6 => |endJoints i - startJoints i|) / speed * 1000) := by
  constructor
  · rw [calculateMoveTime, dist_toE3]
  · rw [calculateJointMoveTime, sup6_eq_nested]

/-! ## C4: the Cartesian validation gate -/

/-- C4: a `moveTo` whose target has any coordinate outside the workspace box
fails synchronously: the submit event produces exactly a rejection, the
machine state (robot state, move queue, flags, in-flight frames) is the one
from before the call, and nothing is queued. -/
theorem moveTo_out_of_workspace (s : SimState) (t : Vec3 ℚ)
    (hout : t.x < -1200 ∨ 1200 < t.x ∨ t.y < -1200 ∨ 1200 < t.y ∨
      t.z < -500 ∨ 1500 < t.z) :
    step s (.submit (.moveTo t)) = (s, [.rejected (.moveTo t)]) := by
  have hv : validCmd (.moveTo t) = false := by
    simp only [validCmd, validatePosition, workspaceCfg, decide_eq_false_iff_not]
    intro ⟨h1, h2, h3, h4, h5, h6⟩
    rcases hout with h | h | h | h | h | h <;> linarith
  simp [step, hv]

/-- Witness for C4 at the out-of-workspace target `(1300, 0, 300)` from the
freshly constructed simulator. -/
theorem moveTo_out_of_workspace_witness :
    step initSim (.submit (.moveTo ⟨1300, 0, 300⟩)) =
      (initSim, [.rejected (.moveTo ⟨1300, 0, 300⟩)]) :=
  moveTo_out_of_workspace initSim ⟨1300, 0, 300⟩ (by norm_num)

/-! ## Queue-machine evaluation lemmas -/

/-- The joint-move command used in concrete traces is accepted by
validation. -/
theorem validCmd_mjA : validCmd (.moveJoints ![30, 45, -45, 90, -90, 180]) = true := by
  rfl

/-- The all-zero joint move is accepted by validation. -/
theorem validCmd_mj0 : validCmd (.moveJoints ![0, 0, 0, 0, 0, 0]) = true := by
  rfl

/-- The Cartesian target `(1000, 0, 300)` is inside the workspace box. -/
theorem validCmd_mt1000 : validCmd (.moveTo ⟨1000, 0, 300⟩) = true := by
  rfl

/-- A mid-interpolation timer advances the single suspended frame by one
step and changes nothing else. -/
theorem step_tick_mid (r : RState) (q : List Cmd) (fl : Bool) (c : Cmd) (i : ℕ)
    (hi : i + 1 < 20) :
    step ⟨r, q, fl, [(c, i)]⟩ (.tick 0) = (⟨r, q, fl, [(c, i + 1)]⟩, []) := by
  simp [step, hi]

/-- The 20th timer of the suspended frame finalizes the move on an empty
queue: the robot state is mutated, the flag and `isMoving` are cleared. -/
theorem step_tick_fin (r : RState) (fl : Bool) (c : Cmd) :
    step ⟨r, [], fl, [(c, 19)]⟩ (.tick 0) =
      (⟨{ applyMove c r with isMoving := false }, [], false, []⟩, [.completed c]) := by
  simp [step]

/-- Running the remaining `n` timers of a single suspended frame over an
empty queue completes the move. -/
theorem run_ticks_complete (c : Cmd) (r : RState) (fl : Bool) :
    ∀ n i, i + n = 20 → 0 < n →
      run ⟨r, [], fl, [(c, i)]⟩ (List.replicate n (.tick 0)) =
        (⟨{ applyMove c r with isMoving := false }, [], false, []⟩, [.completed c]) := by
  intro n
  induction n with
  | zero => intro i _ h0; omega
  | succ m ih =>
    intro i h20 _
    rw [List.replicate_succ]
    by_cases hm : m = 0
    · subst hm
      have hi : i = 19 := by omega
      subst hi
      simp [run, step_tick_fin]
    · have hi : i + 1 < 20 := by omega
      have hrun := ih (i + 1) (by omega) (by omega)
      simp only [run, step_tick_mid r [] fl c i hi, hrun, List.nil_append]

/-! ## C3: emergency stop -/

/-- C3 (amended): after `emergencyStop()` the pending queue is empty, the
processing flag is cleared and `isMoving` is false, for every machine state;
but the stop does not touch the suspended `executeMove` frames or the rest
of the robot state — an in-flight interpolation is not cancelled. -/
theorem emergencyStop_spec (s : SimState) :
    (step s .estop).1.moveQueue = [] ∧
    (step s .estop).1.isProcessingQueue = false ∧
    (step s .estop).1.robot.isMoving = false ∧
    (step s .estop).1.inFlight = s.inFlight ∧
    (step s .estop).1.robot.joints = s.robot.joints ∧
    (step s .estop).1.robot.position = s.robot.position ∧
    (step s .estop).1.robot.orientation = s.robot.orientation ∧
    (step s .estop).2 = [.stopped] := by
  refine ⟨rfl, rfl, rfl, rfl, rfl, rfl, rfl, rfl⟩

/-- C3 is refuted on the mid-interpolation clause: a joint move is started,
`emergencyStop()` is issued while it is suspended mid-interpolation (joint 1
still at its initial -90), and the remaining timers nevertheless run the
move to completion and overwrite the joints (joint 1 becomes 45) — the step
loop never observes the stop, and `RobotState` is mutated after it. -/
theorem emergencyStop_counterexample :
    (run initSim [.submit (.moveJoints ![30, 45, -45, 90, -90, 180]),
        .estop]).1.inFlight ≠ [] ∧
    (run initSim [.submit (.moveJoints ![30, 45, -45, 90, -90, 180]),
        .estop]).1.robot.joints 1 = -90 ∧
    (run initSim (.submit (.moveJoints ![30, 45, -45, 90, -90, 180]) ::
        .estop :: List.replicate 20 (.tick 0))).1.robot.joints 1 = 45 := by
  have h2 : run initSim [.submit (.moveJoints ![30, 45, -45, 90, -90, 180]), .estop] =
      (⟨{ initRobot with isMoving := false }, [], false,
        [(.moveJoints ![30, 45, -45, 90, -90, 180], 0)]⟩,
       [.accepted (.moveJoints ![30, 45, -45, 90, -90, 180]),
        .started (.moveJoints ![30, 45, -45, 90, -90, 180]), .stopped]) := by
    simp [run, step, validCmd_mjA, processQueueStart, initSim]
  refine ⟨by rw [h2]; simp, by rw [h2]; simp [initRobot, initJointAngles], ?_⟩
  have hsplit : run initSim (.submit (.moveJoints ![30, 45, -45, 90, -90, 180]) ::
      .estop :: List.replicate 20 (.tick 0)) =
      (let p := run initSim [.submit (.moveJoints ![30, 45, -45, 90, -90, 180]), .estop]
       let q := run p.1 (List.replicate 20 (.tick 0))
       (q.1, p.2 ++ q.2)) := by
    simp only [run]
    simp [List.append_assoc]
  rw [hsplit]
  simp only [h2]
  rw [run_ticks_complete _ _ _ 20 0 (by omega) (by omega)]
  simp [applyMove]

/-! ## C6: queue discipline -/

/-- `extractSC` distributes over append. -/
theorem extractSC_append (a b : List Obs) :
    extractSC (a ++ b) = extractSC a ++ extractSC b := by
  simp [extractSC, isExecObs]

/-- `acceptedOf` distributes over append. -/
theorem acceptedOf_append (a b : List Obs) :
    acceptedOf (a ++ b) = acceptedOf a ++ acceptedOf b := by
  simp [acceptedOf]

/-- Appending one command to a serial log appends its start/completion. -/
theorem pairsOf_append (cs : List Cmd) (c : Cmd) :
    pairsOf (cs ++ [c]) = pairsOf cs ++ [.started c, .completed c] := by
  simp [pairsOf]

/-- The freshly constructed machine satisfies the queue invariant. -/
theorem qinv_init : QInv initSim [] := by
  refine ⟨by simp [initSim], by simp [initSim], fun _ => rfl, [], ?_, ?_⟩ <;>
    simp [initSim, extractSC, acceptedOf, pairsOf]

/-- Every non-stop event preserves the queue invariant. -/
theorem qinv_step (s : SimState) (log : List Obs) (e : Ev) (he : e ≠ .estop)
    (h : QInv s log) : QInv (step s e).1 (log ++ (step s e).2) := by
  obtain ⟨hflag, hlen, hidle, done, hsc, hacc⟩ := h
  cases e with
  | estop => exact absurd rfl he
  | submit c =>
    by_cases hv : validCmd c = true
    · by_cases hp : s.isProcessingQueue = true
      · have hstep : step s (.submit c) =
            ({ s with moveQueue := s.moveQueue ++ [c] }, [.accepted c]) := by
          simp [step, hv, processQueueStart, hp]
        rw [hstep]
        dsimp only
        refine ⟨hflag, hlen, ?_, done, ?_, ?_⟩
        · intro hf
          rw [hp] at hf
          cases hf
        · rw [extractSC_append, hsc]
          simp [extractSC, isExecObs]
        · rw [acceptedOf_append, hacc]
          simp [acceptedOf, List.append_assoc]
      · have hp0 : s.isProcessingQueue = false := by simpa using hp
        have hifl : s.inFlight = [] := by
          by_contra hne
          rw [hflag.mpr hne] at hp0
          cases hp0
        have hq : s.moveQueue = [] := hidle hp0
        have hstep : step s (.submit c) =
            (⟨{ s.robot with isMoving := true }, [], true, s.inFlight ++ [(c, 0)]⟩,
             [.accepted c, .started c]) := by
          simp [step, hv, processQueueStart, hp0, hq]
        rw [hstep]
        dsimp only
        refine ⟨?_, ?_, ?_, done, ?_, ?_⟩
        · simp [hifl]
        · simp [hifl]
        · intro hf
          cases hf
        · rw [extractSC_append, hsc, hifl]
          simp [extractSC, isExecObs]
        · rw [acceptedOf_append, hacc, hifl, hq]
          simp [acceptedOf]
    · have hstep : step s (.submit c) = (s, [.rejected c]) := by
        simp [step, hv]
      rw [hstep]
      dsimp only
      refine ⟨hflag, hlen, hidle, done, ?_, ?_⟩
      · rw [extractSC_append, hsc]
        simp [extractSC, isExecObs]
      · rw [acceptedOf_append, hacc]
        simp [acceptedOf]
  | tick k =>
    cases hg : s.inFlight[k]? with
    | none =>
      have hstep : step s (.tick k) = (s, []) := by simp [step, hg]
      rw [hstep]
      dsimp only
      exact ⟨hflag, hlen, hidle, done, by simpa using hsc, by simpa using hacc⟩
    | some ci =>
      obtain ⟨c, i⟩ := ci
      have hkl : k < s.inFlight.length := by
        by_contra hh
        push_neg at hh
        rw [List.getElem?_eq_none hh] at hg
        cases hg
      have hone : s.inFlight.length = 1 := by omega
      obtain ⟨a, hfl⟩ := List.length_eq_one.mp hone
      have hk0 : k = 0 := by omega
      subst hk0
      rw [hfl] at hg
      have hac : a = (c, i) := by simpa using hg
      subst hac
      have hptrue : s.isProcessingQueue = true := hflag.mpr (by simp [hfl])
      by_cases hi : i + 1 < 20
      · have hstep : step s (.tick 0) =
            ({ s with inFlight := s.inFlight.set 0 (c, i + 1) }, []) := by
          simp [step, hfl, hi]
        rw [hstep]
        dsimp only
        refine ⟨?_, ?_, fun hf => hidle hf, done, ?_, ?_⟩
        · rw [hfl]
          simpa [hfl] using hflag
        · simp [hfl]
        · rw [hfl]
          simpa [hfl] using hsc
        · rw [hfl]
          simpa [hfl] using hacc
      · cases hqq : s.moveQueue with
        | nil =>
          have hstep : step s (.tick 0) =
              (⟨{ applyMove c s.robot with isMoving := false }, [], false, []⟩,
               [.completed c]) := by
            simp [step, hfl, hqq, hi]
          rw [hstep]
          dsimp only
          refine ⟨by simp, by simp, fun _ => rfl, done ++ [c], ?_, ?_⟩
          · rw [extractSC_append, hsc, pairsOf_append, hfl]
            simp [extractSC, isExecObs]
          · rw [acceptedOf_append, hacc, hfl, hqq]
            simp [acceptedOf]
        | cons nxt rest =>
          have hstep : step s (.tick 0) =
              (⟨applyMove c s.robot, rest, s.isProcessingQueue, [(nxt, 0)]⟩,
               [.completed c, .started nxt]) := by
            simp [step, hfl, hqq, hi]
          rw [hstep]
          dsimp only
          refine ⟨by simp [hptrue], by simp, ?_, done ++ [c], ?_, ?_⟩
          · intro hf
            rw [hptrue] at hf
            cases hf
          · rw [extractSC_append, hsc, pairsOf_append, hfl]
            simp [extractSC, isExecObs]
          · rw [acceptedOf_append, hacc, hfl, hqq]
            simp [acceptedOf]

/-- The queue invariant holds after any stop-free event sequence. -/
theorem qinv_run (evs : List Ev) (hs : ∀ e ∈ evs, e ≠ Ev.estop) :
    ∀ (s : SimState) (log : List Obs), QInv s log →
      QInv (run s evs).1 (log ++ (run s evs).2) := by
  induction evs with
  | nil => intro s log h; simpa [run] using h
  | cons e es ih =>
    intro s log h
    have h1 := qinv_step s log e (hs e (by simp)) h
    have h2 := ih (fun x hx => hs x (by simp [hx])) (step s e).1
      (log ++ (step s e).2) h1
    simpa [run, List.append_assoc] using h2

/-- C6 (amended): in every execution without `emergencyStop`, the queue is
strict FIFO with at most one request executing at any time: the
started/completed log is a serial record `started c₁, completed c₁,
started c₂, completed c₂, …` of a prefix `done` of the accepted commands in
acceptance order (plus the start of the at-most-one currently executing
request), and the accepted commands are exactly `done`, then the executing
one, then the still-queued ones, in order.  (After a mid-move
`emergencyStop`, the cleared flag lets a new submission start a second
concurrent drain — see the counterexample.) -/
theorem queue_fifo_spec (evs : List Ev) (h : Ev.estop ∉ evs) :
    ∃ done : List Cmd,
      extractSC (run initSim evs).2 =
        pairsOf done ++ (run initSim evs).1.inFlight.map (fun p => Obs.started p.1) ∧
      (run initSim evs).1.inFlight.length ≤ 1 ∧
      acceptedOf (run initSim evs).2 =
        done ++ (run initSim evs).1.inFlight.map Prod.fst ++
          (run initSim evs).1.moveQueue := by
  have hq := qinv_run evs (fun e he => by rintro rfl; exact h he) initSim [] qinv_init
  obtain ⟨_, hlen, _, done, hsc, hacc⟩ := hq
  exact ⟨done, by simpa using hsc, hlen, by simpa using hacc⟩

/-- Witness for C6 on a concrete stop-free trace. -/
theorem queue_fifo_spec_witness :
    (Ev.estop ∉ [Ev.submit (.moveJoints ![30, 45, -45, 90, -90, 180]), Ev.tick 0]) ∧
    ∃ done : List Cmd,
      extractSC (run initSim [Ev.submit (.moveJoints ![30, 45, -45, 90, -90, 180]),
          Ev.tick 0]).2 =
        pairsOf done ++ (run initSim [Ev.submit (.moveJoints ![30, 45, -45, 90, -90, 180]),
          Ev.tick 0]).1.inFlight.map (fun p => Obs.started p.1) ∧
      (run initSim [Ev.submit (.moveJoints ![30, 45, -45, 90, -90, 180]),
          Ev.tick 0]).1.inFlight.length ≤ 1 ∧
      acceptedOf (run initSim [Ev.submit (.moveJoints ![30, 45, -45, 90, -90, 180]),
          Ev.tick 0]).2 =
        done ++ (run initSim [Ev.submit (.moveJoints ![30, 45, -45, 90, -90, 180]),
          Ev.tick 0]).1.inFlight.map Prod.fst ++
          (run initSim [Ev.submit (.moveJoints ![30, 45, -45, 90, -90, 180]),
          Ev.tick 0]).1.moveQueue := by
  have hne : Ev.estop ∉ [Ev.submit (Cmd.moveJoints ![30, 45, -45, 90, -90, 180]),
      Ev.tick 0] := by simp
  exact ⟨hne, queue_fifo_spec _ hne⟩

/-- C6 is refuted when `emergencyStop` interleaves: request A starts,
`emergencyStop` clears the flag while A is still suspended mid-execution,
and a later submission of B starts a second concurrent drain — two requests
are executing at once, and B's execution begins before A's completion is
ever logged. -/
theorem queue_fifo_counterexample :
    (run initSim [.submit (.moveJoints ![30, 45, -45, 90, -90, 180]), .estop,
        .submit (.moveJoints ![0, 0, 0, 0, 0, 0])]).1.inFlight.length = 2 ∧
    (run initSim [.submit (.moveJoints ![30, 45, -45, 90, -90, 180]), .estop,
        .submit (.moveJoints ![0, 0, 0, 0, 0, 0])]).2 =
      [.accepted (.moveJoints ![30, 45, -45, 90, -90, 180]),
       .started (.moveJoints ![30, 45, -45, 90, -90, 180]),
       .stopped,
       .accepted (.moveJoints ![0, 0, 0, 0, 0, 0]),
       .started (.moveJoints ![0, 0, 0, 0, 0, 0])] := by
  constructor <;>
    simp [run, step, validCmd_mjA, validCmd_mj0, processQueueStart, initSim]

/-! ## C2: the cos-theta3 reachability policy -/

/-- `Math.atan2(0, x)` for positive `x` is zero. -/
theorem atan2_zero_of_pos (x : ℝ) (hx : 0 < x) : atan2 0 x = 0 := by
  simp [atan2, hx]

/-- Between the reach checks, the law-of-cosines value is always inside
`[-1, 1]`. -/
theorem cos_theta3_in_range (D : ℝ) (hD0 : 0 ≤ D) (h1 : ¬ (200 + 150 : ℝ) < D)
    (h2 : ¬ D < |(200 : ℝ) - 150|) :
    |(200 * 200 + 150 * 150 - D * D) / (2 * 200 * 150 : ℝ)| ≤ 1 := by
  push_neg at h1 h2
  rw [show |(200 : ℝ) - 150| = 50 by norm_num] at h2
  rw [abs_le]
  constructor
  · rw [le_div_iff₀ (by norm_num)]
    nlinarith
  · rw [div_le_one (by norm_num)]
    nlinarith

/-- C2 (amended): in the extended geometric solver, the explicit
reach checks at `max_reach`/`min_reach` run first, so in exact arithmetic
`|cos θ3|` never exceeds 1 at the noise branch — the clamp branch (which, as
written, assigns to a `const` and would throw a `TypeError`) is dead code —
and every target whose `cos θ3` would exceed the bound is already rejected
as unreachable. -/
theorem ikGeo_noise_policy (p : Vec3 ℝ) :
    ikGeo p ≠ .typeError ∧
    (1 < |ikGeoCosTheta3 p| → ikGeo p = .unreachable) := by
  unfold ikGeo ikGeoCosTheta3
  dsimp only
  split_ifs with h1 h2 h3 h4 h5
  · exact ⟨by simp, fun _ => rfl⟩
  · exact ⟨by simp, fun _ => rfl⟩
  · exact absurd h3 (not_lt.mpr (cos_theta3_in_range _ (Real.sqrt_nonneg _) h1 h2))
  · exact absurd h3 (not_lt.mpr (cos_theta3_in_range _ (Real.sqrt_nonneg _) h1 h2))
  · exact ⟨by simp, fun hh => absurd hh h3⟩
  · exact ⟨by simp, fun hh => absurd hh h3⟩

/-- The extended solver's `cos θ3` at the workspace-interior target
`(1000, 0, 300)`. -/
theorem ikGeoCosTheta3_eval : ikGeoCosTheta3 ⟨1000, 0, 300⟩ = -1193 / 75 := by
  unfold ikGeoCosTheta3 defaultPitch
  dsimp only
  rw [Real.cos_pi_div_two, Real.sin_pi_div_two]
  rw [show ((1000 : ℝ) - 70 * Real.cos (atan2 0 1000) * 0) *
      ((1000 : ℝ) - 70 * Real.cos (atan2 0 1000) * 0) +
      ((0 : ℝ) - 70 * Real.sin (atan2 0 1000) * 0) *
      ((0 : ℝ) - 70 * Real.sin (atan2 0 1000) * 0) = 1000000 by ring]
  rw [Real.mul_self_sqrt (by positivity)]
  rw [Real.mul_self_sqrt (by norm_num)]
  norm_num

/-- Witness for C2: at `(1000, 0, 300)` the law-of-cosines value exceeds the
bound (by far more than `1e-6`) and the extended solver reports the target
unreachable. -/
theorem ikGeo_noise_policy_witness :
    1 < |ikGeoCosTheta3 ⟨1000, 0, 300⟩| ∧
    ikGeo ⟨1000, 0, 300⟩ = .unreachable := by
  have hc : 1 < |ikGeoCosTheta3 ⟨1000, 0, 300⟩| := by
    rw [ikGeoCosTheta3_eval, abs_of_neg (by norm_num)]
    norm_num
  exact ⟨hc, (ikGeo_noise_policy ⟨1000, 0, 300⟩).2 hc⟩

/-- The core solver's `cos θ3` at the same target. -/
theorem ikCosTheta3_eval : ikCosTheta3 ⟨1000, 0, 300⟩ = -351 / 25 := by
  unfold ikCosTheta3
  dsimp only
  rw [atan2_zero_of_pos 1000 (by norm_num), Real.cos_zero, Real.sin_zero]
  rw [show ((1000 : ℝ) - 70 * 1) * ((1000 : ℝ) - 70 * 1) +
      ((0 : ℝ) - 70 * 0) * ((0 : ℝ) - 70 * 0) = 864900 by ring]
  rw [Real.mul_self_sqrt (by positivity)]
  rw [Real.mul_self_sqrt (by norm_num)]
  norm_num

/-- The core solver returns the "safe configuration" joint vector (all
zeros, since `θ1 = 0`) at the unreachable target `(1000, 0, 300)`. -/
theorem calculateInverseKinematics_eval :
    calculateInverseKinematics ⟨1000, 0, 300⟩ = ![0, 0, 0, 0, 0, 0] := by
  unfold calculateInverseKinematics
  dsimp only
  rw [atan2_zero_of_pos 1000 (by norm_num), Real.cos_zero, Real.sin_zero]
  rw [show ((1000 : ℝ) - 70 * 1) * ((1000 : ℝ) - 70 * 1) +
      ((0 : ℝ) - 70 * 0) * ((0 : ℝ) - 70 * 0) = 864900 by ring]
  rw [Real.mul_self_sqrt (by positivity)]
  rw [Real.mul_self_sqrt (by norm_num)]
  rw [if_pos (by rw [abs_of_neg (by norm_num)]; norm_num)]
  funext i
  fin_cases i <;> norm_num

/-- C2 is refuted on the core solver actually used by `executeMove`: at
`(1000, 0, 300)` the excess of `|cos θ3|` over 1 is far greater than `1e-6`,
yet `calculateInverseKinematics` returns a joint vector (the safe
configuration) — its codomain has no `Unreachable` marker at all. -/
theorem ik_unreachable_counterexample :
    1 + 1 / 1000000 < |ikCosTheta3 ⟨1000, 0, 300⟩| ∧
    calculateInverseKinematics ⟨1000, 0, 300⟩ = ![0, 0, 0, 0, 0, 0] := by
  refine ⟨?_, calculateInverseKinematics_eval⟩
  rw [ikCosTheta3_eval, abs_of_neg (by norm_num)]
  norm_num

/-! ## C1: the forward-kinematics consistency invariant -/

/-- The forward-kinematics position of the all-zero joint vector (the joint
vector the core IK returns for the unreachable target used below). -/
theorem fk_zero_pos :
    (calculateForwardKinematics ![0, 0, 0, 0, 0, 0]).pos = ⟨-220, -200, 60⟩ := by
  unfold calculateForwardKinematics dhParamsSim fkFold poseOfT Pose.pos
  simp only [List.ofFn_succ, List.ofFn_zero, Matrix.cons_val_zero, Matrix.cons_val_one,
    Matrix.head_cons, Matrix.cons_val_succ, List.zip_cons_cons, List.zip_nil_right,
    List.foldl_cons, List.foldl_nil]
  norm_num [mul4, dhMat, id4, Real.cos_pi_div_two, Real.sin_pi_div_two]

/-- The rational target `(1000, 0, 300)` casts to the real target. -/
theorem toR_target : Vec3.toR ⟨1000, 0, 300⟩ = (⟨1000, 0, 300⟩ : Vec3 ℝ) := by
  norm_num [Vec3.toR]

/-- Unfolding `run` one event at a time. -/
theorem run_cons (s : SimState) (e : Ev) (es : List Ev) :
    run s (e :: es) =
      ((run (step s e).1 es).1, (step s e).2 ++ (run (step s e).1 es).2) := rfl

/-- C1 (amended): `position`/`orientation` are the forward-kinematics image
of `joints` after construction and after the completion of every
`moveJoints` command; the `moveTo` path does not re-derive the pose (see the
counterexample). -/
theorem fk_invariant_joint_moves :
    FKConsistent initRobot ∧
    ∀ (r : RState) (target : Fin 6 → ℚ),
      FKConsistent (applyMove (.moveJoints target) r) := by
  exact ⟨⟨rfl, rfl⟩, fun r target => ⟨rfl, rfl⟩⟩

/-- C1 is refuted on the Cartesian path: the in-workspace `moveTo
(1000, 0, 300)` is accepted and runs to completion, after which
`state.position` is the raw target while forward kinematics of the stored
joints (the safe-configuration vector returned by the unverified IK) lands
at `(-220, -200, 60)` — the invariant does not hold after a completed
CartesianMove. -/
theorem fk_invariant_counterexample :
    (run initSim (.submit (.moveTo ⟨1000, 0, 300⟩) ::
        List.replicate 20 (.tick 0))).2 =
      [.accepted (.moveTo ⟨1000, 0, 300⟩), .started (.moveTo ⟨1000, 0, 300⟩),
       .completed (.moveTo ⟨1000, 0, 300⟩)] ∧
    (run initSim (.submit (.moveTo ⟨1000, 0, 300⟩) ::
        List.replicate 20 (.tick 0))).1.robot.position = (⟨1000, 0, 300⟩ : Vec3 ℝ) ∧
    ¬ FKConsistent (run initSim (.submit (.moveTo ⟨1000, 0, 300⟩) ::
        List.replicate 20 (.tick 0))).1.robot := by
  have hsub : step initSim (.submit (.moveTo ⟨1000, 0, 300⟩)) =
      (⟨{ initRobot with isMoving := true }, [], true, [(.moveTo ⟨1000, 0, 300⟩, 0)]⟩,
       [.accepted (.moveTo ⟨1000, 0, 300⟩), .started (.moveTo ⟨1000, 0, 300⟩)]) := by
    simp [step, validCmd_mt1000, processQueueStart, initSim]
  have hall : run initSim (.submit (.moveTo ⟨1000, 0, 300⟩) ::
      List.replicate 20 (.tick 0)) =
      (⟨{ applyMove (.moveTo ⟨1000, 0, 300⟩) { initRobot with isMoving := true } with
            isMoving := false }, [], false, []⟩,
       [.accepted (.moveTo ⟨1000, 0, 300⟩), .started (.moveTo ⟨1000, 0, 300⟩),
        .completed (.moveTo ⟨1000, 0, 300⟩)]) := by
    rw [run_cons, hsub]
    rw [run_ticks_complete _ _ _ 20 0 (by omega) (by omega)]
    rfl
  rw [hall]
  refine ⟨rfl, by simp [applyMove, toR_target], ?_⟩
  intro hcons
  have h1 := hcons.1
  simp only [applyMove] at h1
  rw [toR_target] at h1
  rw [calculateInverseKinematics_eval] at h1
  rw [fk_zero_pos] at h1
  have hx : (-220 : ℝ) = 1000 := congrArg Vec3.x h1
  norm_num at hx

/-! ## C5: the numerical IK's iteration budget

The joint-space iterates of the Newton-Raphson loop are arbitrary reals,
but the forward-kinematics position is bounded uniformly (rotation entries
of every accumulated transform are bounded, so the translation column is
too), so a target placed far enough away can never meet the tolerance and
the loop exhausts its budget. -/

/-- Product bound from factor bounds. -/
theorem abs_mul_le (x y X Y : ℝ) (hx : |x| ≤ X) (hy : |y| ≤ Y) :
    |x * y| ≤ X * Y := by
  rw [abs_mul]
  exact mul_le_mul hx hy (abs_nonneg y) (le_trans (abs_nonneg x) hx)

/-- A product of two unit-bounded reals is unit-bounded. -/
theorem abs_unit_mul (u v : ℝ) (hu : |u| ≤ 1) (hv : |v| ≤ 1) : |u * v| ≤ 1 := by
  simpa using abs_mul_le u v 1 1 hu hv

/-- Entry bound for the first DH column `(cos θ, sin θ, 0, 0)`. -/
theorem dh_col_first (B p q r s2 ct st : ℝ) (hp : |p| ≤ B) (hq : |q| ≤ B)
    (hct : |ct| ≤ 1) (hst : |st| ≤ 1) :
    |p * ct + q * st + r * 0 + s2 * 0| ≤ 3 * B := by
  have hB : 0 ≤ B := le_trans (abs_nonneg p) hp
  simp only [mul_zero, add_zero]
  calc |p * ct + q * st| ≤ |p * ct| + |q * st| := abs_add _ _
    _ ≤ B * 1 + B * 1 :=
      add_le_add (abs_mul_le _ _ _ _ hp hct) (abs_mul_le _ _ _ _ hq hst)
    _ ≤ 3 * B := by linarith

/-- Entry bound for a rotation column with three unit-bounded entries. -/
theorem dh_col_rot (B p q r s2 u v w : ℝ) (hp : |p| ≤ B) (hq : |q| ≤ B)
    (hr : |r| ≤ B) (hu : |u| ≤ 1) (hv : |v| ≤ 1) (hw : |w| ≤ 1) :
    |p * u + q * v + r * w + s2 * 0| ≤ 3 * B := by
  have hB : 0 ≤ B := le_trans (abs_nonneg p) hp
  simp only [mul_zero, add_zero]
  calc |p * u + q * v + r * w| ≤ |p * u + q * v| + |r * w| := abs_add _ _
    _ ≤ (|p * u| + |q * v|) + |r * w| := by linarith [abs_add (p * u) (q * v)]
    _ ≤ (B * 1 + B * 1) + B * 1 := by
      refine add_le_add (add_le_add ?_ ?_) ?_ <;> exact abs_mul_le _ _ _ _ (by assumption) (by assumption)
    _ ≤ 3 * B := by linarith

/-- Entry bound for the translation column `(a cos θ, a sin θ, d, 1)`. -/
theorem dh_col_trans (B C a d p q r s2 ct st : ℝ) (hp : |p| ≤ B) (hq : |q| ≤ B)
    (hr : |r| ≤ B) (hs : |s2| ≤ C) (hct : |ct| ≤ 1) (hst : |st| ≤ 1)
    (ha : 0 ≤ a) (hd : 0 ≤ d) :
    |p * (a * ct) + q * (a * st) + r * d + s2 * 1| ≤ C + (B * a + B * a + B * d) := by
  have hB : 0 ≤ B := le_trans (abs_nonneg p) hp
  have hact : |a * ct| ≤ a := by
    rw [abs_mul, abs_of_nonneg ha]
    exact mul_le_of_le_one_right ha hct
  have hast : |a * st| ≤ a := by
    rw [abs_mul, abs_of_nonneg ha]
    exact mul_le_of_le_one_right ha hst
  have h1 : |p * (a * ct)| ≤ B * a := abs_mul_le _ _ _ _ hp hact
  have h2 : |q * (a * st)| ≤ B * a := abs_mul_le _ _ _ _ hq hast
  have h3 : |r * d| ≤ B * d := abs_mul_le _ _ _ _ hr (by rw [abs_of_nonneg hd])
  have h4 : |s2 * 1| ≤ C := by rw [mul_one]; exact hs
  calc |p * (a * ct) + q * (a * st) + r * d + s2 * 1|
      ≤ |p * (a * ct) + q * (a * st) + r * d| + |s2 * 1| := abs_add _ _
    _ ≤ (|p * (a * ct) + q * (a * st)| + |r * d|) + |s2 * 1| := by
        linarith [abs_add (p * (a * ct) + q * (a * st)) (r * d)]
    _ ≤ ((|p * (a * ct)| + |q * (a * st)|) + |r * d|) + |s2 * 1| := by
        linarith [abs_add (p * (a * ct)) (q * (a * st))]
    _ ≤ C + (B * a + B * a + B * d) := by linarith

/-- Multiplying a bounded transform by one DH transform multiplies the
rotation bound by 3 and grows the translation bound by `B(2a + d)`. -/
theorem matBound_mul (T : Mat4) (B C a alpha d theta : ℝ) (h : MatBound T B C)
    (ha : 0 ≤ a) (hd : 0 ≤ d) :
    MatBound (mul4 T (dhMat a alpha d theta)) (3 * B) (C + (B * a + B * a + B * d)) := by
  obtain ⟨h00, h01, h02, h03, h10, h11, h12, h13, h20, h21, h22, h23⟩ := h
  have hct := Real.abs_cos_le_one theta
  have hst := Real.abs_sin_le_one theta
  have hca := Real.abs_cos_le_one alpha
  have hsa := Real.abs_sin_le_one alpha
  have b01 : |-Real.sin theta * Real.cos alpha| ≤ 1 :=
    abs_unit_mul _ _ (by rw [abs_neg]; exact hst) hca
  have b02 : |Real.sin theta * Real.sin alpha| ≤ 1 := abs_unit_mul _ _ hst hsa
  have b11 : |Real.cos theta * Real.cos alpha| ≤ 1 := abs_unit_mul _ _ hct hca
  have b12 : |-Real.cos theta * Real.sin alpha| ≤ 1 :=
    abs_unit_mul _ _ (by rw [abs_neg]; exact hct) hsa
  refine ⟨?_, ?_, ?_, ?_, ?_, ?_, ?_, ?_, ?_, ?_, ?_, ?_⟩ <;>
    dsimp only [mul4, dhMat]
  · exact dh_col_first B _ _ _ _ _ _ h00 h01 hct hst
  · exact dh_col_rot B _ _ _ _ _ _ _ h00 h01 h02 b01 b11 hsa
  · exact dh_col_rot B _ _ _ _ _ _ _ h00 h01 h02 b02 b12 hca
  · exact dh_col_trans B C a d _ _ _ _ _ _ h00 h01 h02 h03 hct hst ha hd
  · exact dh_col_first B _ _ _ _ _ _ h10 h11 hct hst
  · exact dh_col_rot B _ _ _ _ _ _ _ h10 h11 h12 b01 b11 hsa
  · exact dh_col_rot B _ _ _ _ _ _ _ h10 h11 h12 b02 b12 hca
  · exact dh_col_trans B C a d _ _ _ _ _ _ h10 h11 h12 h13 hct hst ha hd
  · exact dh_col_first B _ _ _ _ _ _ h20 h21 hct hst
  · exact dh_col_rot B _ _ _ _ _ _ _ h20 h21 h22 b01 b11 hsa
  · exact dh_col_rot B _ _ _ _ _ _ _ h20 h21 h22 b02 b12 hca
  · exact dh_col_trans B C a d _ _ _ _ _ _ h20 h21 h22 h23 hct hst ha hd

/-- The identity transform is bounded by `(1, 0)`. -/
theorem matBound_id : MatBound id4 1 0 := by
  refine ⟨?_, ?_, ?_, ?_, ?_, ?_, ?_, ?_, ?_, ?_, ?_, ?_⟩ <;> norm_num [id4]

/-- The `Kinematics` DH accumulation, unfolded to the explicit product. -/
theorem kinT_eq (j : Fin 6 → ℝ) :
    fkFold Kinematics.dhParams (List.ofFn j) =
      mul4 (mul4 (mul4 (mul4 (mul4 (mul4 id4
        (dhMat 0 (Real.pi / 2) 35 (j 0)))
        (dhMat 80 0 0 (j 1)))
        (dhMat 80 0 0 (j 2)))
        (dhMat 0 (Real.pi / 2) 50 (j 3)))
        (dhMat 0 (-(Real.pi / 2)) 30 (j 4)))
        (dhMat 0 0 15 (j 5)) := by
  simp [Kinematics.dhParams, fkFold, List.ofFn_succ]
  rfl

/-- Uniform bound on the numerical engine's forward-kinematics position:
every coordinate of `forwardPos` stays within 9380 length units of the
origin, for every joint vector whatsoever. -/
theorem forwardPos_bound (j : Fin 6 → ℝ) :
    |(Kinematics.forwardPos j).x| ≤ 9380 ∧ |(Kinematics.forwardPos j).y| ≤ 9380 ∧
    |(Kinematics.forwardPos j).z| ≤ 9380 := by
  have h1 := matBound_mul id4 1 0 0 (Real.pi / 2) 35 (j 0) matBound_id
    (by norm_num) (by norm_num)
  have h2 := matBound_mul _ _ _ 80 0 0 (j 1) h1 (by norm_num) (by norm_num)
  have h3 := matBound_mul _ _ _ 80 0 0 (j 2) h2 (by norm_num) (by norm_num)
  have h4 := matBound_mul _ _ _ 0 (Real.pi / 2) 50 (j 3) h3 (by norm_num)
    (by norm_num)
  have h5 := matBound_mul _ _ _ 0 (-(Real.pi / 2)) 30 (j 4) h4 (by norm_num)
    (by norm_num)
  have h6 := matBound_mul _ _ _ 0 0 15 (j 5) h5 (by norm_num) (by norm_num)
  obtain ⟨_, _, _, hx, _, _, _, hy, _, _, _, hz⟩ := h6
  have hfp : Kinematics.forwardPos j =
      ⟨(fkFold Kinematics.dhParams (List.ofFn j)).m03,
       (fkFold Kinematics.dhParams (List.ofFn j)).m13,
       (fkFold Kinematics.dhParams (List.ofFn j)).m23⟩ := rfl
  rw [hfp, kinT_eq j]
  refine ⟨le_trans hx (by norm_num), le_trans hy (by norm_num),
    le_trans hz (by norm_num)⟩

/-- A target at least 10000 units out along x can never satisfy the 0.001
tolerance: no iterate converges, whatever the ranges and the initial guess. -/
theorem far_target_not_converged (t : Vec3 ℝ) (ht : 10000 ≤ t.x)
    (ranges : Fin 6 → Option (ℚ × ℚ)) (g : Fin 6 → ℝ) :
    ¬ Kinematics.ikConverged ranges t g := by
  rintro ⟨k, _, hlt⟩
  set j := (Kinematics.ikStep ranges t)^[k] g with hj
  have hb := (forwardPos_bound j).1
  have he0 : Kinematics.ikErr t j 0 = t.x - (Kinematics.forwardPos j).x := by
    simp [Kinematics.ikErr, Vec3.coord]
  have hlarge : (620 : ℝ) ≤ |Kinematics.ikErr t j 0| := by
    rw [he0]
    rw [abs_le] at hb
    rw [le_abs]
    left
    linarith
  have hmag : |Kinematics.ikErr t j 0| ≤ Kinematics.ikErrMag t j := by
    rw [Kinematics.ikErrMag, ← Real.sqrt_mul_self_eq_abs (Kinematics.ikErr t j 0)]
    apply Real.sqrt_le_sqrt
    nlinarith [mul_self_nonneg (Kinematics.ikErr t j 1),
      mul_self_nonneg (Kinematics.ikErr t j 2)]
  have : (0.001 : ℝ) < Kinematics.ikErrMag t j := by linarith
  linarith

/-- When no iterate below `n` meets the tolerance, the bounded loop just
iterates the update `n` times. -/
theorem ikLoop_exhausts (ranges : Fin 6 → Option (ℚ × ℚ)) (t : Vec3 ℝ) :
    ∀ (n : ℕ) (j : Fin 6 → ℝ),
      (∀ k, k < n →
        ¬ Kinematics.ikErrMag t ((Kinematics.ikStep ranges t)^[k] j) < 0.001) →
      Kinematics.ikLoop ranges t n j = (Kinematics.ikStep ranges t)^[n] j := by
  intro n
  induction n with
  | zero => intro j _; simp [Kinematics.ikLoop]
  | succ m ih =>
    intro j h
    rw [Kinematics.ikLoop]
    rw [if_neg (by simpa using h 0 (Nat.succ_pos m))]
    rw [ih (Kinematics.ikStep ranges t j) (fun k hk => by
      have := h (k + 1) (by omega)
      simpa [Function.iterate_succ_apply] using this)]
    rw [← Function.iterate_succ_apply]

/-- C5 (amended): when the 100-iteration budget is exhausted without the
error norm dropping below the 0.001 tolerance, `inverseKinematics` returns
the best-effort 100-times-stepped joint vector itself — a plain joint
array of exactly the same shape as a successful return.  Only a console
warning marks non-convergence; the returned value carries no marker a
caller could test. -/
theorem inverseKinematics_not_converged (ranges : Fin 6 → Option (ℚ × ℚ))
    (target : Vec3 ℝ) (guess : Fin 6 → ℝ)
    (h : ¬ Kinematics.ikConverged ranges target guess) :
    Kinematics.inverseKinematics ranges target guess =
      (Kinematics.ikStep ranges target)^[100] guess := by
  rw [Kinematics.inverseKinematics]
  apply ikLoop_exhausts
  intro k hk hlt
  exact h ⟨k, hk, hlt⟩

/-- Witness for C5 at the unreachable target `(20000, 0, 0)` with the
default guess. -/
theorem inverseKinematics_not_converged_witness :
    ¬ Kinematics.ikConverged Kinematics.configRanges ⟨20000, 0, 0⟩
        Kinematics.defaultGuess ∧
    Kinematics.inverseKinematics Kinematics.configRanges ⟨20000, 0, 0⟩
        Kinematics.defaultGuess =
      (Kinematics.ikStep Kinematics.configRanges ⟨20000, 0, 0⟩)^[100]
        Kinematics.defaultGuess := by
  have h := far_target_not_converged ⟨20000, 0, 0⟩ (by norm_num)
    Kinematics.configRanges Kinematics.defaultGuess
  exact ⟨h, inverseKinematics_not_converged _ _ _ h⟩

/-- C5 is refuted on distinguishability: at the far target
`(1000000, 0, 0)` the solver never converges, yet its return value is the
bare 100-times-stepped joint vector — the same kind of value a successful
solve returns, with no `NotConverged` marker in the codomain at all. -/
theorem inverseKinematics_counterexample :
    ¬ Kinematics.ikConverged Kinematics.configRanges ⟨1000000, 0, 0⟩
        Kinematics.defaultGuess ∧
    Kinematics.inverseKinematics Kinematics.configRanges ⟨1000000, 0, 0⟩
        Kinematics.defaultGuess =
      (Kinematics.ikStep Kinematics.configRanges ⟨1000000, 0, 0⟩)^[100]
        Kinematics.defaultGuess := by
  have h := far_target_not_converged ⟨1000000, 0, 0⟩ (by norm_num)
    Kinematics.configRanges Kinematics.defaultGuess
  refine ⟨h, ?_⟩
  rw [Kinematics.inverseKinematics]
  apply ikLoop_exhausts
  intro k hk hlt
  exact h ⟨k, hk, hlt⟩

end RobotSim
